import Mathlib

/-!
Shallow embedding of the conversation state machine and the
field-extraction/validation pipeline of the dental voice agent
(source: app.py, google_sheets_manager.py), together with proofs of the
behavioural properties stated in the specification.

External collaborators (Google Calendar, Google Sheets, the NLU oracle)
are modelled as oracle inputs carried in an environment record, and the
calls made to them are recorded in an explicit trace, so that ordering
properties of the dispatch operations can be stated and proved.
-/

namespace DentalAgent

/-! ## Python truthiness for optional string fields

In the source every conversation-state slot is either None or a string;
Python treats None and the empty string as falsy.  `truthy` mirrors the
`if value:` / `if not value:` tests used throughout app.py. -/

def truthy : Option String → Bool
  | none => false
  | some s => !(s == "")

/-! ## Conversation state (app.py, DentalVoiceAgent.__init__ / reset_state)

The dict `self.state` of DentalVoiceAgent.  `awaiting_field` is a separate
attribute of the agent and is threaded explicitly by the functions that
touch it. -/

structure ConvState where
  intent : Option String
  patient_type : Option String
  customer_id : Option String
  name : Option String
  phone : Option String
  date : Option String
  time : Option String
  new_date : Option String
  new_time : Option String
  reason : Option String
  customer_confirmed : Bool
  deriving Repr, DecidableEq

/-- The state produced by `reset_state` (app.py lines 219-223): every key
set to None, `customer_confirmed` back to False. -/
def emptyState : ConvState :=
  ⟨none, none, none, none, none, none, none, none, none, none, false⟩

/-! ## Extraction results (one turn of the parser)

A per-turn partial field set: `none` models a key that is absent from the
parsed dict or mapped to None, `some ""` a key that is present but empty.
`customer_confirmed` can be carried by the confirmation branch of
`parse_with_llm`; a `some false` there is falsy in Python and therefore
never written by `update_state`. -/

structure ExtractionResult where
  intent : Option String := none
  patient_type : Option String := none
  customer_id : Option String := none
  name : Option String := none
  phone : Option String := none
  date : Option String := none
  time : Option String := none
  new_date : Option String := none
  new_time : Option String := none
  reason : Option String := none
  customer_confirmed : Option Bool := none
  deriving Repr, DecidableEq

/-- Merge of one extracted field into the state: `if value: self.state[key] = value`
(app.py lines 579-583). -/
def mergeField (old new : Option String) : Option String :=
  if truthy new then new else old

/-- Merge of the boolean `customer_confirmed` field: only a Python-truthy
value (that is, `True`) overwrites. -/
def mergeBool (old : Bool) (new : Option Bool) : Bool :=
  if new == some true then true else old

/-- DentalVoiceAgent.update_state (app.py lines 579-583): every truthy
value of the new data overwrites the state slot, every falsy value
(absent key, None, empty string, False) leaves the slot unchanged. -/
def update_state (st : ConvState) (d : ExtractionResult) : ConvState where
  intent := mergeField st.intent d.intent
  patient_type := mergeField st.patient_type d.patient_type
  customer_id := mergeField st.customer_id d.customer_id
  name := mergeField st.name d.name
  phone := mergeField st.phone d.phone
  date := mergeField st.date d.date
  time := mergeField st.time d.time
  new_date := mergeField st.new_date d.new_date
  new_time := mergeField st.new_time d.new_time
  reason := mergeField st.reason d.reason
  customer_confirmed := mergeBool st.customer_confirmed d.customer_confirmed

/-! ## Missing-field resolver (app.py, get_missing_fields, lines 585-642) -/

/-- Lookup of a state slot by its Python dict key, as used by
`self.state.get(f)` inside the required-field filters. -/
def getField (st : ConvState) : String → Option String
  | "intent" => st.intent
  | "patient_type" => st.patient_type
  | "customer_id" => st.customer_id
  | "name" => st.name
  | "phone" => st.phone
  | "date" => st.date
  | "time" => st.time
  | "new_date" => st.new_date
  | "new_time" => st.new_time
  | "reason" => st.reason
  | _ => none

/-- The filter `[f for f in required if not self.state.get(f)]`. -/
def missingOf (st : ConvState) (required : List String) : List String :=
  required.filter (fun f => !truthy (getField st f))

/-- DentalVoiceAgent.get_missing_fields (app.py lines 585-642): the
decision table keyed by patient type, confirmation status and intent. -/
def get_missing_fields (st : ConvState) : List String :=
  if !truthy st.patient_type then ["patient_type"]
  else if st.patient_type == some "old" then
    if !truthy st.customer_id then ["customer_id"]
    else if !st.customer_confirmed then ["customer_confirmation"]
    else if st.intent == some "book" || !truthy st.intent then
      missingOf st ["name", "phone", "date", "time", "reason"]
    else if st.intent == some "reschedule" then
      missingOf st ["name", "phone", "date", "time", "new_date", "new_time"]
    else if st.intent == some "cancel" then
      missingOf st ["name", "customer_id", "date", "time"]
    else []
  else
    if st.intent == some "book" || !truthy st.intent then
      missingOf st ["name", "phone", "date", "time", "reason"]
    else if st.intent == some "reschedule" then
      missingOf st ["name", "phone", "date", "time", "new_date", "new_time"]
    else if st.intent == some "cancel" then
      missingOf st ["name", "phone", "date", "time"]
    else []

/-- The action chosen by generate_response once no field is missing
(app.py lines 722-734). -/
inductive Action
  | doBook
  | doReschedule
  | doCancel
  | doView
  | defaultBook
  | askIntent
  deriving Repr, DecidableEq

/-- Dispatch section of generate_response (app.py lines 722-734): an
unknown (falsy) intent is routed to `book`; a truthy intent that matches
none of the four actions falls back to booking when name and phone are
known, and to a generic what-would-you-like prompt otherwise. -/
def chooseAction (st : ConvState) : Action :=
  if st.intent == some "book" || !truthy st.intent then .doBook
  else if st.intent == some "reschedule" then .doReschedule
  else if st.intent == some "cancel" then .doCancel
  else if st.intent == some "view_appointments" then .doView
  else if truthy st.name && truthy st.phone then .defaultBook
  else .askIntent

/-! ## Calendar dates

The Python code manipulates timezone-aware datetimes; the operations the
core actually performs on them are: construction from parsed strings,
comparison (chronological order), day-of-week, adding whole days, and
formatting back to `YYYY-MM-DD`.  A proleptic-Gregorian triple together
with day arithmetic embeds exactly that fragment. -/

structure Date where
  y : Nat
  m : Nat
  d : Nat
  deriving Repr, DecidableEq

def isLeap (y : Nat) : Bool :=
  (y % 4 == 0 && !(y % 100 == 0)) || y % 400 == 0

def daysInMonth (y m : Nat) : Nat :=
  if m == 2 then (if isLeap y then 29 else 28)
  else if m == 4 || m == 6 || m == 9 || m == 11 then 30
  else 31

/-- Well-formed calendar date (the range enforced by Python's datetime,
year 1..9999). -/
def validDate (dt : Date) : Bool :=
  1 ≤ dt.y && dt.y ≤ 9999 && 1 ≤ dt.m && dt.m ≤ 12 && 1 ≤ dt.d &&
    dt.d ≤ daysInMonth dt.y dt.m

/-- Month and day ranges only (no upper year bound); what the ordering
and successor lemmas need. -/
def wfDate (dt : Date) : Prop :=
  1 ≤ dt.m ∧ dt.m ≤ 12 ∧ 1 ≤ dt.d ∧ dt.d ≤ daysInMonth dt.y dt.m

instance (dt : Date) : Decidable (wfDate dt) := by
  unfold wfDate; infer_instance

/-- Successor day (the effect of `+ timedelta(days=1)`). -/
def nextDay (dt : Date) : Date :=
  if dt.d < daysInMonth dt.y dt.m then ⟨dt.y, dt.m, dt.d + 1⟩
  else if dt.m < 12 then ⟨dt.y, dt.m + 1, 1⟩
  else ⟨dt.y + 1, 1, 1⟩

def addDays : Nat → Date → Date
  | 0, dt => dt
  | n + 1, dt => nextDay (addDays n dt)

/-- Order-preserving encoding of a (well-formed) date; chronological
comparison of datetimes at equal times of day is exactly lexicographic
comparison of (year, month, day), which this encoding realizes. -/
def encDate (dt : Date) : Nat :=
  (dt.y * 16 + dt.m) * 32 + dt.d

def dateLt (a b : Date) : Bool := encDate a < encDate b

def dateLe (a b : Date) : Bool := encDate a ≤ encDate b

def daysBeforeMonth : Nat → Nat
  | 1 => 0
  | 2 => 31
  | 3 => 59
  | 4 => 90
  | 5 => 120
  | 6 => 151
  | 7 => 181
  | 8 => 212
  | 9 => 243
  | 10 => 273
  | 11 => 304
  | 12 => 334
  | _ => 365

/-- Day count of a proleptic-Gregorian date, with 0001-01-01 as day 1. -/
def dayNumber (dt : Date) : Nat :=
  365 * (dt.y - 1) + (dt.y - 1) / 4 - (dt.y - 1) / 100 + (dt.y - 1) / 400 +
    daysBeforeMonth dt.m + (if 2 < dt.m && isLeap dt.y then 1 else 0) + dt.d

/-- Python's date.weekday(): Monday = 0 .. Sunday = 6.  0001-01-01 of the
proleptic Gregorian calendar is a Monday. -/
def pyWeekday (dt : Date) : Nat :=
  (dayNumber dt - 1) % 7

def pad2 (n : Nat) : String :=
  if n < 10 then "0" ++ toString n else toString n

def pad4 (n : Nat) : String :=
  if n < 10 then "000" ++ toString n
  else if n < 100 then "00" ++ toString n
  else if n < 1000 then "0" ++ toString n
  else toString n

/-- strftime("%Y-%m-%d"). -/
def fmtDate (dt : Date) : String :=
  pad4 dt.y ++ "-" ++ pad2 dt.m ++ "-" ++ pad2 dt.d

/-- A parsed date-plus-time instant (the `start` datetime of book /
reschedule); only the date, hour and minute are ever consulted. -/
structure Instant where
  date : Date
  hour : Nat
  minute : Nat
  deriving Repr, DecidableEq

/-- DentalVoiceAgent.is_business_hours (app.py lines 395-406): Sunday is
rejected, otherwise the hour must lie in [9, 17). -/
def is_business_hours (inst : Instant) : Bool :=
  if pyWeekday inst.date == 6 then false
  else if inst.hour < 9 || 17 ≤ inst.hour then false
  else true

/-- One of the three validation failures of the booking gate. -/
inductive GateFail
  | pastDate
  | window
  | hoursClosed
  deriving Repr, DecidableEq

/-- The validation gate of book (app.py lines 759-773): past-date check,
3-day booking-window check, then business-hours check; `none` means the
target instant passed all three. -/
def bookGate (today : Date) (inst : Instant) : Option GateFail :=
  if dateLt inst.date today then some .pastDate
  else if dateLt (addDays 3 today) inst.date then some .window
  else if !is_business_hours inst then some .hoursClosed
  else none

/-! ## String scanning utilities

The regular expressions of app.py are small and fixed, so each one is
embedded as a hand-rolled scanner over `List Char` with exactly the
leftmost-match and greedy-with-backtracking semantics of Python's `re`. -/

/-- Python whitespace (for str.strip and the regex class \s). -/
def isSpaceCh (c : Char) : Bool :=
  c == ' ' || c == '\t' || c == '\n' || c == '\r' || c == '\x0b' || c == '\x0c'

/-- str.strip(). -/
def stripL (cs : List Char) : List Char :=
  ((cs.dropWhile isSpaceCh).reverse.dropWhile isSpaceCh).reverse

/-- Literal-prefix test. -/
def isPrefixL : List Char → List Char → Bool
  | [], _ => true
  | _ :: _, [] => false
  | a :: as, b :: bs => a == b && isPrefixL as bs

/-- Python's substring test `tok in hay`. -/
def containsL (hay tok : List Char) : Bool :=
  match hay with
  | [] => tok.isEmpty
  | _ :: rest => isPrefixL tok hay || containsL rest tok

/-- Consume a literal, returning the remainder. -/
def dropPrefixL : List Char → List Char → Option (List Char)
  | [], cs => some cs
  | _ :: _, [] => none
  | a :: as, b :: bs => if a == b then dropPrefixL as bs else none

/-- Case-insensitive variant (the pattern is given lowercased). -/
def dropPrefixCI : List Char → List Char → Option (List Char)
  | [], cs => some cs
  | _ :: _, [] => none
  | a :: as, b :: bs => if a == b.toLower then dropPrefixCI as bs else none

/-- Leftmost-match regex search: try the position matcher at every start
position, left to right. -/
def searchWith {α : Type} (f : List Char → Option α) : List Char → Option α
  | [] => f []
  | c :: rest =>
    match f (c :: rest) with
    | some r => some r
    | none => searchWith f rest

/-- Numeric value of a digit group. -/
def digitsToNat (ds : List Char) : Nat :=
  ds.foldl (fun acc c => acc * 10 + (c.toNat - 48)) 0

/-- str(n).zfill(2) applied to a 1-2 character digit group. -/
def zfill2 (g : List Char) : String :=
  match g with
  | [c] => String.mk ['0', c]
  | _ => String.mk g

/-- Keep only digit characters (re.sub stripping of non-digits). -/
def filterDigits (s : String) : String :=
  String.mk (s.data.filter Char.isDigit)

def allDigits (s : String) : Bool :=
  s.data.all Char.isDigit

/-! ## normalize_time (app.py lines 408-444)

Four anchored patterns tried in order; the first match decides the
result, and a non-match of all four yields None. -/

/-- Tail `\.?M\.?$` of the meridiem (first anchored pattern and the bare
hour-plus-meridiem pattern), case-insensitively. -/
def meridiemEndL : List Char → Bool
  | '.' :: m :: rest => (m == 'M' || m == 'm') && (rest == [] || rest == ['.'])
  | m :: rest => (m == 'M' || m == 'm') && (rest == [] || rest == ['.'])
  | [] => false

/-- Tail `\s*[AP]\.?M\.?$`, returning the meridiem letter as matched. -/
def meridiemL (cs : List Char) : Option Char :=
  match cs.dropWhile isSpaceCh with
  | c :: rest =>
    if (c == 'A' || c == 'P' || c == 'a' || c == 'p') && meridiemEndL rest then
      some c
    else none
  | [] => none

/-- Tail `:\d{2}\s*[AP]\.?M\.?$` of the first pattern. -/
def p1TailL : List Char → Bool
  | ':' :: a :: b :: rest => a.isDigit && b.isDigit && (meridiemL rest).isSome
  | _ => false

/-- Anchored pattern `^\d{1,2}:\d{2}\s*[AP]\.?M\.?$` (case-insensitive):
a greedy two-digit hour with backtracking to one digit. -/
def matchTimeP1 : List Char → Bool
  | a :: b :: rest => a.isDigit && ((b.isDigit && p1TailL rest) || p1TailL (b :: rest))
  | _ => false

/-- Anchored pattern `^(\d{1,2})\s*([AP])\.?M\.?$`: hour digits and the
meridiem letter. -/
def matchTimeP2 : List Char → Option (List Char × Char)
  | a :: b :: rest =>
    if a.isDigit then
      if b.isDigit then
        match meridiemL rest with
        | some c => some ([a, b], c)
        | none => (meridiemL (b :: rest)).map (fun c => ([a], c))
      else (meridiemL (b :: rest)).map (fun c => ([a], c))
    else none
  | _ => none

/-- Anchored pattern `^(\d{1,2}):(\d{2})$`: 24-hour clock input. -/
def matchTimeP3 : List Char → Option (Nat × List Char)
  | a :: ':' :: m1 :: m2 :: rest =>
    if a.isDigit && m1.isDigit && m2.isDigit && rest == [] then
      some (digitsToNat [a], [m1, m2])
    else none
  | a :: b :: ':' :: m1 :: m2 :: rest =>
    if a.isDigit && b.isDigit && m1.isDigit && m2.isDigit && rest == [] then
      some (digitsToNat [a, b], [m1, m2])
    else none
  | _ => none

/-- Anchored pattern `^(\d{1,2})$`: a bare hour. -/
def matchTimeP4 : List Char → Option Nat
  | [a] => if a.isDigit then some (digitsToNat [a]) else none
  | [a, b] => if a.isDigit && b.isDigit then some (digitsToNat [a, b]) else none
  | _ => none

/-- DentalVoiceAgent.normalize_time (app.py lines 408-444): canonicalize
any of the four accepted time shapes to `H:MM AM/PM`, or None. -/
def normalize_time (s : String) : Option String :=
  if s == "" then none
  else
    let cs := stripL s.data
    if matchTimeP1 cs then
      some (String.mk ((cs.map Char.toUpper).filter (fun c => !(c == '.'))))
    else
      match matchTimeP2 cs with
      | some (g1, c) => some (String.mk g1 ++ ":00 " ++ String.mk [c.toUpper, 'M'])
      | none =>
        match matchTimeP3 cs with
        | some (h, mm) =>
          let period := if h < 12 then "AM" else "PM"
          let h12 := if h == 0 then 12 else if 12 < h then h - 12 else h
          some (toString h12 ++ ":" ++ String.mk mm ++ " " ++ period)
        | none =>
          match matchTimeP4 cs with
          | some h =>
            let period := if h < 12 then "AM" else "PM"
            let h12 := if 12 < h then h - 12 else h
            some (toString h12 ++ ":00 " ++ period)
          | none => none

/-! ## extract_date (app.py lines 446-521)

The rules are tried in the source's fixed order: explicit YYYY-MM-DD,
day-first DD/MM/YYYY or DD-MM-YYYY, month-name forms (iterating the
months dict in insertion order, four patterns per name), relative
keywords, and finally a bare day number.

A Python particularity is embedded explicitly: in the month-name branch
with the year omitted, the code builds a *naive* datetime and compares it
against the timezone-*aware* `today`, which raises TypeError (and an
invalid day raises ValueError from the constructor); the exception
escapes extract_date.  `Except PyError` models this. -/

inductive PyError
  | typeError
  | valueError
  deriving Repr, DecidableEq

/-- Group `(\d{1,2})` followed by the literal `-`, greedy with
backtracking (used by the YYYY-MM-DD rule). -/
def grab12Dash (cs : List Char) : Option (List Char × List Char) :=
  match cs with
  | a :: rest1 =>
    if !a.isDigit then none
    else
      match rest1 with
      | b :: rest2 =>
        if b.isDigit then
          match rest2 with
          | '-' :: rest3 => some ([a, b], rest3)
          | _ => none
        else if b == '-' then some ([a], rest2)
        else none
      | [] => none
  | [] => none

/-- Group `(\d{1,2})` followed by a slash-or-dash separator class, greedy with
backtracking (used by the day-first rule). -/
def grab12Sep (cs : List Char) : Option (List Char × List Char) :=
  match cs with
  | a :: rest1 =>
    if !a.isDigit then none
    else
      match rest1 with
      | b :: rest2 =>
        if b.isDigit then
          match rest2 with
          | s :: rest3 => if s == '/' || s == '-' then some ([a, b], rest3) else none
          | [] => none
        else if b == '/' || b == '-' then some ([a], rest2)
        else none
      | [] => none
  | [] => none

/-- Trailing group `(\d{1,2})` with no continuation, greedy. -/
def grab12End (cs : List Char) : Option (List Char) :=
  match cs with
  | a :: b :: _ => if a.isDigit then some (if b.isDigit then [a, b] else [a]) else none
  | [a] => if a.isDigit then some [a] else none
  | [] => none

/-- Group `(\d{4})`: four consecutive digits. -/
def grab4 (cs : List Char) : Option (List Char) :=
  match cs with
  | a :: b :: c :: d :: _ =>
    if a.isDigit && b.isDigit && c.isDigit && d.isDigit then some [a, b, c, d]
    else none
  | _ => none

/-- Position matcher for `(\d{4})-(\d{1,2})-(\d{1,2})`. -/
def ymdAt (cs : List Char) : Option (List Char × List Char × List Char) :=
  match cs with
  | a :: b :: c :: d :: '-' :: rest =>
    if a.isDigit && b.isDigit && c.isDigit && d.isDigit then
      match grab12Dash rest with
      | some (mo, rest2) =>
        match grab12End rest2 with
        | some dd => some ([a, b, c, d], mo, dd)
        | none => none
      | none => none
    else none
  | _ => none

/-- Position matcher for the day-first rule: day group, separator, month
group, separator, then a four-digit year. -/
def dmyAt (cs : List Char) : Option (List Char × List Char × List Char) :=
  match grab12Sep cs with
  | some (dd, r1) =>
    match grab12Sep r1 with
    | some (mo, r2) =>
      match grab4 r2 with
      | some yy => some (dd, mo, yy)
      | none => none
    | none => none
  | none => none

/-- The months dict of extract_date, in insertion order. -/
def monthsList : List (String × Nat) :=
  [("january", 1), ("jan", 1), ("february", 2), ("feb", 2), ("march", 3),
   ("mar", 3), ("april", 4), ("apr", 4), ("may", 5), ("june", 6), ("jun", 6),
   ("july", 7), ("jul", 7), ("august", 8), ("aug", 8), ("september", 9),
   ("sep", 9), ("october", 10), ("oct", 10), ("november", 11), ("nov", 11),
   ("december", 12), ("dec", 12)]

/-- Optional ordinal suffix `(?:st|nd|rd|th)?` (the text is lowercased
for the month patterns). -/
def ordSuffix : List Char → Option (List Char)
  | 's' :: 't' :: rest => some rest
  | 'n' :: 'd' :: rest => some rest
  | 'r' :: 'd' :: rest => some rest
  | 't' :: 'h' :: rest => some rest
  | _ => none

/-- `\s+` (at least one whitespace character, greedy; every token
following it in the month patterns is disjoint from whitespace). -/
def chompSp (cs : List Char) : Option (List Char) :=
  match cs with
  | c :: rest => if isSpaceCh c then some (rest.dropWhile isSpaceCh) else none
  | [] => none

/-- Day group with optional ordinal suffix,
`(\d{1,2})(?:st|nd|rd|th)?`, in full backtracking order: two digits with
suffix, two digits without, one digit with, one digit without. -/
def dayThen {α : Type} (cs : List Char) (k : List Char → List Char → Option α) :
    Option α :=
  match cs with
  | a :: rest1 =>
    if !a.isDigit then none
    else
      (match rest1 with
       | b :: rest2 =>
         if b.isDigit then
           (match ordSuffix rest2 with
            | some r3 => k [a, b] r3
            | none => none) <|> k [a, b] rest2
         else none
       | [] => none) <|>
      ((match ordSuffix rest1 with
        | some r2 => k [a] r2
        | none => none) <|> k [a] rest1)
  | [] => none

/-- `\s+(\d{4})`. -/
def spYear (cs : List Char) : Option (List Char) :=
  (chompSp cs).bind grab4

/-- Month pattern 1 at a position: `(name)\s+(\d{1,2})(?:st|nd|rd|th)?\s+(\d{4})`. -/
def monthP1At (nameL : List Char) (cs : List Char) : Option (List Char × List Char) :=
  (dropPrefixL nameL cs).bind fun r1 =>
    (chompSp r1).bind fun r2 =>
      dayThen r2 fun day r3 => (spYear r3).map fun y => (day, y)

/-- Month pattern 2 at a position: `(\d{1,2})(?:st|nd|rd|th)?\s+(name)\s+(\d{4})`. -/
def monthP2At (nameL : List Char) (cs : List Char) : Option (List Char × List Char) :=
  dayThen cs fun day r1 =>
    (chompSp r1).bind fun r2 =>
      (dropPrefixL nameL r2).bind fun r3 =>
        (spYear r3).map fun y => (day, y)

/-- Terminator `(?:\s|$|,)` of month pattern 3. -/
def sepOrEnd : List Char → Bool
  | [] => true
  | c :: _ => isSpaceCh c || c == ','

/-- Month pattern 3 at a position: `(name)\s+(\d{1,2})(?:st|nd|rd|th)?(?:\s|$|,)`. -/
def monthP3At (nameL : List Char) (cs : List Char) : Option (List Char) :=
  (dropPrefixL nameL cs).bind fun r1 =>
    (chompSp r1).bind fun r2 =>
      dayThen r2 fun day r3 => if sepOrEnd r3 then some day else none

/-- Month pattern 4 at a position: `(name)\s+(\d{4})`. -/
def monthP4At (nameL : List Char) (cs : List Char) : Option (List Char) :=
  (dropPrefixL nameL cs).bind fun r1 => spYear r1

/-- The four patterns of one month name, searched in the source's order;
the result is (day group, year group) with `none` for an omitted group,
mirroring the `indices` convention of the source. -/
def monthSearchOne (nameL : List Char) (cs : List Char) :
    Option (Option (List Char) × Option (List Char)) :=
  match searchWith (monthP1At nameL) cs with
  | some (d, y) => some (some d, some y)
  | none =>
    match searchWith (monthP2At nameL) cs with
    | some (d, y) => some (some d, some y)
    | none =>
      match searchWith (monthP3At nameL) cs with
      | some d => some (some d, none)
      | none =>
        match searchWith (monthP4At nameL) cs with
        | some y => some (none, some y)
        | none => none

/-- Iteration over the months dict: first name whose patterns match wins. -/
def monthScan : List (String × Nat) → List Char →
    Option (Nat × Option (List Char) × Option (List Char))
  | [], _ => none
  | (nm, num) :: rest, cs =>
    match monthSearchOne nm.data cs with
    | some (d, y) => some (num, d, y)
    | none => monthScan rest cs

/-- The body of the month-name branch (app.py lines 484-496).  With the
year omitted the source constructs `datetime(year_int, month_num,
day_int)` — ValueError if the triple is invalid — and then compares this
naive value against the aware `today`, which raises TypeError. -/
def monthResult (today : Date) (num : Nat) (dayG yearG : Option (List Char)) :
    Except PyError (Option String) :=
  let dayInt := digitsToNat (dayG.getD ['0', '1'])
  let yearInt := match yearG with
    | some y => digitsToNat y
    | none => today.y
  match yearG with
  | none =>
    if validDate ⟨yearInt, num, dayInt⟩ then .error .typeError
    else .error .valueError
  | some _ =>
    .ok (some (toString yearInt ++ "-" ++ pad2 num ++ "-" ++ pad2 dayInt))

/-- Word character for the regex boundary `\b`. -/
def isWordCh (c : Char) : Bool :=
  c.isAlphanum || c == '_'

/-- `\b(\d{1,2})(?:st|nd|rd|th)?\b` at one position (the opening boundary
is checked by the caller, which tracks the previous character). -/
def bareHere (cs : List Char) : Option (List Char) :=
  dayThen cs fun day r =>
    if (match r with | [] => true | c :: _ => !isWordCh c) then some day else none

/-- Search for the bare day-number pattern, tracking whether the previous
character is a word character (for the opening `\b`). -/
def searchBare : Bool → List Char → Option (List Char)
  | _, [] => none
  | prev, c :: rest =>
    match (if prev then none else bareHere (c :: rest)) with
    | some d => some d
    | none => searchBare (isWordCh c) rest

/-- The bare day-number branch (app.py lines 507-519):
`today.replace(day=day)`, roll to the next month when already past, all
inside a try/except ValueError that turns an invalid replacement into
None.  Both datetimes here are aware, so the comparison is sound and
reduces to comparing the day (year, month and time of day are equal). -/
def bareBranch (today : Date) (dayG : List Char) : Option String :=
  let day := digitsToNat dayG
  if 1 ≤ day && day ≤ 31 then
    if day ≤ daysInMonth today.y today.m then
      if day < today.d then
        let nm := if today.m < 12 then today.m + 1 else 1
        let ny := if today.m < 12 then today.y else today.y + 1
        if ny ≤ 9999 && day ≤ daysInMonth ny nm then some (fmtDate ⟨ny, nm, day⟩)
        else none
      else some (fmtDate ⟨today.y, today.m, day⟩)
    else none
  else none

/-- DentalVoiceAgent.extract_date (app.py lines 446-521). -/
def extract_date (today : Date) (text : String) : Except PyError (Option String) :=
  let cs := text.data
  let lcs := cs.map Char.toLower
  match searchWith ymdAt cs with
  | some (yy, mo, dd) =>
    .ok (some (String.mk yy ++ "-" ++ zfill2 mo ++ "-" ++ zfill2 dd))
  | none =>
    match searchWith dmyAt cs with
    | some (dd, mo, yy) =>
      .ok (some (String.mk yy ++ "-" ++ zfill2 mo ++ "-" ++ zfill2 dd))
    | none =>
      match monthScan monthsList lcs with
      | some (num, dayG, yearG) => monthResult today num dayG yearG
      | none =>
        if containsL lcs "tomorrow".data then .ok (some (fmtDate (nextDay today)))
        else if containsL lcs "today".data then .ok (some (fmtDate today))
        else if containsL lcs "next week".data then .ok (some (fmtDate (addDays 7 today)))
        else
          match searchBare false cs with
          | some dayG => .ok (bareBranch today dayG)
          | none => .ok none

/-! ## strptime (the two formats used by app.py)

CPython's strptime compiles a format to one regex and requires the whole
input to be consumed; `%Y` is exactly four digits, `%m` and `%I` are
restricted to 1-12, `%d` to 1-31 (also allowing a space-padded single
digit), `%M` to 0-59 or a single digit, `%p` to AM/PM case-insensitively,
and a literal space matches any nonempty whitespace run.  The resulting
triple is then validated as a calendar date. -/

/-- `%m` / `%I`: two-character alternatives `1[0-2] | 0[1-9]`. -/
def monthAlt2 (a b : Char) : Option Nat :=
  if a == '1' && ('0' ≤ b && b ≤ '2') then some (10 + (b.toNat - 48))
  else if a == '0' && ('1' ≤ b && b ≤ '9') then some (b.toNat - 48)
  else none

/-- `%m` / `%I`: one-character alternative `[1-9]`. -/
def monthAlt1 (a : Char) : Option Nat :=
  if '1' ≤ a && a ≤ '9' then some (a.toNat - 48) else none

/-- `%d`: two-character alternatives `3[0-1] | [1-2]\d | 0[1-9] | (space)[1-9]`. -/
def dayAlt2 (a b : Char) : Option Nat :=
  if a == '3' && (b == '0' || b == '1') then some (30 + (b.toNat - 48))
  else if (a == '1' || a == '2') && b.isDigit then
    some ((a.toNat - 48) * 10 + (b.toNat - 48))
  else if a == '0' && ('1' ≤ b && b ≤ '9') then some (b.toNat - 48)
  else if a == ' ' && ('1' ≤ b && b ≤ '9') then some (b.toNat - 48)
  else none

/-- `%m` with regex backtracking, in continuation style. -/
def pMonth {α : Type} (cs : List Char) (k : Nat → List Char → Option α) : Option α :=
  match cs with
  | a :: b :: rest =>
    (match monthAlt2 a b with
     | some m => k m rest
     | none => none) <|>
    (match monthAlt1 a with
     | some m => k m (b :: rest)
     | none => none)
  | [a] =>
    match monthAlt1 a with
    | some m => k m []
    | none => none
  | [] => none

/-- `%d` with regex backtracking, in continuation style. -/
def pDay {α : Type} (cs : List Char) (k : Nat → List Char → Option α) : Option α :=
  match cs with
  | a :: b :: rest =>
    (match dayAlt2 a b with
     | some d => k d rest
     | none => none) <|>
    (match monthAlt1 a with
     | some d => k d (b :: rest)
     | none => none)
  | [a] =>
    match monthAlt1 a with
    | some d => k d []
    | none => none
  | [] => none

/-- `%M` (`[0-5]\d | \d`) with backtracking, in continuation style. -/
def pMinute {α : Type} (cs : List Char) (k : Nat → List Char → Option α) : Option α :=
  match cs with
  | a :: b :: rest =>
    (if ('0' ≤ a && a ≤ '5') && b.isDigit then
       k ((a.toNat - 48) * 10 + (b.toNat - 48)) rest
     else none) <|>
    (if a.isDigit then k (a.toNat - 48) (b :: rest) else none)
  | [a] => if a.isDigit then k (a.toNat - 48) [] else none
  | [] => none

/-- `%p` at the end of the input: AM or PM, case-insensitive; `true`
means PM. -/
def pAmPmEnd : List Char → Option Bool
  | [a, m] =>
    if m == 'M' || m == 'm' then
      if a == 'A' || a == 'a' then some false
      else if a == 'P' || a == 'p' then some true
      else none
    else none
  | _ => none

/-- The 12-hour to 24-hour conversion performed by strptime for %I + %p. -/
def to24 (h : Nat) (pm : Bool) : Nat :=
  if pm then (if h == 12 then 12 else h + 12)
  else (if h == 12 then 0 else h)

/-- strptime(s, "%Y-%m-%d"): exact four-digit year, restricted month and
day groups, full consumption, then calendar validation. -/
def parseISO (s : String) : Option Date :=
  match s.data with
  | y1 :: y2 :: y3 :: y4 :: '-' :: rest =>
    if y1.isDigit && y2.isDigit && y3.isDigit && y4.isDigit then
      let y := digitsToNat [y1, y2, y3, y4]
      pMonth rest fun m r2 =>
        match r2 with
        | '-' :: r3 =>
          pDay r3 fun d r4 =>
            if r4 == [] && validDate ⟨y, m, d⟩ then some ⟨y, m, d⟩ else none
        | _ => none
    else none
  | _ => none

/-- strptime(s, "%Y-%m-%d %I:%M %p") on the composite date-time string of
book / reschedule_appointment, producing the aware `start` instant. -/
def parseDT12 (s : String) : Option Instant :=
  match s.data with
  | y1 :: y2 :: y3 :: y4 :: '-' :: rest =>
    if y1.isDigit && y2.isDigit && y3.isDigit && y4.isDigit then
      let y := digitsToNat [y1, y2, y3, y4]
      pMonth rest fun m r2 =>
        match r2 with
        | '-' :: r3 =>
          pDay r3 fun d r4 =>
            (chompSp r4).bind fun r5 =>
              pMonth r5 fun h r6 =>
                match r6 with
                | ':' :: r7 =>
                  pMinute r7 fun mi r8 =>
                    (chompSp r8).bind fun r9 =>
                      (pAmPmEnd r9).bind fun pm =>
                        if validDate ⟨y, m, d⟩ then
                          some ⟨⟨y, m, d⟩, to24 h pm, mi⟩
                        else none
                | _ => none
        | _ => none
    else none
  | _ => none

/-! ## validate_and_fix (app.py lines 359-393) -/

/-- Python's `s.split(" ", 1)` when `" " in s`: the pieces before and
after the first space. -/
def splitFirstSpace : List Char → Option (List Char × List Char)
  | [] => none
  | ' ' :: rest => some ([], rest)
  | c :: rest => (splitFirstSpace rest).map (fun p => (c :: p.1, p.2))

/-- One date slot of the validation loop (app.py lines 369-386): split a
date-plus-time value at the first space (recovering the time part into
the paired empty time slot), keep the date when it parses as ISO, and
otherwise re-extract it from the original utterance (any exception from
extract_date is swallowed into None by the bare except). -/
def fixOneDate (today : Date) (dval tval : Option String) (original : String) :
    Option String × Option String :=
  if truthy dval then
    let s := dval.getD ""
    let parts :=
      if s.data.contains ' ' then splitFirstSpace s.data else none
    let dstr := match parts with
      | some (l, _) => String.mk l
      | none => s
    let tval2 := match parts with
      | some (_, r) => if truthy tval then tval else normalize_time (String.mk r)
      | none => tval
    let dfixed : Option String :=
      if (parseISO dstr).isSome then some dstr
      else
        match extract_date today original with
        | .ok v => v
        | .error _ => none
    (dfixed, tval2)
  else (dval, tval)

/-- One time slot of the validation loop (app.py lines 389-391). -/
def fixOneTime (tval : Option String) : Option String :=
  if truthy tval then normalize_time (tval.getD "") else tval

/-- DentalVoiceAgent.validate_and_fix (app.py lines 359-393): phone
stripped to digits, date slots repaired, time slots re-normalized. -/
def validate_and_fix (today : Date) (parsed : ExtractionResult) (original : String) :
    ExtractionResult :=
  let parsed :=
    if truthy parsed.phone then
      { parsed with phone := some (filterDigits (parsed.phone.getD "")) }
    else parsed
  let p1 := fixOneDate today parsed.date parsed.time original
  let parsed := { parsed with date := p1.1, time := p1.2 }
  let p2 := fixOneDate today parsed.new_date parsed.new_time original
  let parsed := { parsed with new_date := p2.1, new_time := p2.2 }
  let parsed := { parsed with time := fixOneTime parsed.time }
  { parsed with new_time := fixOneTime parsed.new_time }

/-! ## fallback_parse (app.py lines 523-577) -/

/-- The regex class of the phone pattern: digits and whitespace. -/
def phoneClassCh (c : Char) : Bool :=
  c.isDigit || isSpaceCh c

/-- Position matcher for the phone pattern: a digit followed by at least
seven digits-or-spaces, greedy. -/
def phoneAt (cs : List Char) : Option (List Char) :=
  match cs with
  | c :: rest =>
    if c.isDigit then
      let run := rest.takeWhile phoneClassCh
      if 7 ≤ run.length then some (c :: run) else none
    else none
  | [] => none

def apos : Char := Char.ofNat 39

/-- The introducer alternatives of the name pattern, lowercased, in the
source's alternation order. -/
def namePhrases : List (List Char) :=
  ["my name is".data, "i am".data, ['i', apos, 'm'], ['i', 't', apos, 's'],
   "this is".data]

/-- The capture class of the name pattern with re.I: ASCII letters and
whitespace. -/
def nameClassCh (c : Char) : Bool :=
  ('a' ≤ c.toLower && c.toLower ≤ 'z') || isSpaceCh c

/-- After an introducer: whitespace (at least one) then the greedy
letters-and-spaces capture (at least one character); when the capture
cannot start after the whitespace run, the run itself backs off by one
character and donates it to the capture. -/
def nameAfterPhrase (cs : List Char) : Option (List Char) :=
  let sp := cs.takeWhile isSpaceCh
  let rest := cs.drop sp.length
  if sp.length == 0 then none
  else
    let g := rest.takeWhile nameClassCh
    if 0 < g.length then some g
    else if 2 ≤ sp.length then some [sp.getLastD ' ']
    else none

/-- Try the introducer alternatives at one position, each with its full
continuation. -/
def nameAt : List (List Char) → List Char → Option (List Char)
  | [], _ => none
  | p :: ps, cs =>
    match (dropPrefixCI p cs).bind nameAfterPhrase with
    | some g => some g
    | none => nameAt ps cs

/-- First alternative of the inline time pattern: one or two digits, a
colon, two digits. -/
def timeAlt1 (cs : List Char) : Option (List Char) :=
  match cs with
  | a :: rest1 =>
    if !a.isDigit then none
    else
      (match rest1 with
       | b :: ':' :: m1 :: m2 :: _ =>
         if b.isDigit && m1.isDigit && m2.isDigit then some [a, b, ':', m1, m2]
         else none
       | _ => none) <|>
      (match rest1 with
       | ':' :: m1 :: m2 :: _ =>
         if m1.isDigit && m2.isDigit then some [a, ':', m1, m2] else none
       | _ => none)
  | [] => none

/-- Tail of the second time alternative: optional whitespace then a
case-insensitive meridiem; returns the matched text. -/
def timeAlt2End (digs : List Char) (cs : List Char) : Option (List Char) :=
  let sp := cs.takeWhile isSpaceCh
  let rest := cs.drop sp.length
  match rest with
  | p :: m :: _ =>
    if (p == 'a' || p == 'p' || p == 'A' || p == 'P') && (m == 'm' || m == 'M') then
      some (digs ++ sp ++ [p, m])
    else none
  | _ => none

/-- Second alternative of the inline time pattern: one or two digits,
optional whitespace, a meridiem. -/
def timeAlt2 (cs : List Char) : Option (List Char) :=
  match cs with
  | a :: rest1 =>
    if !a.isDigit then none
    else
      (match rest1 with
       | b :: rest2 => if b.isDigit then timeAlt2End [a, b] rest2 else none
       | [] => none) <|>
      timeAlt2End [a] rest1
  | [] => none

/-- The inline time pattern of fallback_parse at one position: the two
alternatives in order. -/
def timeAltAt (cs : List Char) : Option (List Char) :=
  match timeAlt1 cs with
  | some r => some r
  | none => timeAlt2 cs

/-- The awaiting-field routing chain of fallback_parse (app.py lines
554-576), abstracted over the already-computed matches: the one awaited
slot is filled when its extraction succeeded, otherwise everything
extracted is returned at once. -/
def routeFields (awaiting : Option String) (cs : List Char)
    (intent : Option String) (phoneM nameM : Option (List Char))
    (extractedDate extractedTime : Option String) : ExtractionResult :=
  let base : ExtractionResult := { intent := intent }
  if awaiting == some "new_date" && truthy extractedDate then
    { base with new_date := extractedDate }
  else if awaiting == some "new_time" && truthy extractedTime then
    { base with new_time := extractedTime }
  else if awaiting == some "date" && truthy extractedDate then
    { base with date := extractedDate }
  else if awaiting == some "time" && truthy extractedTime then
    { base with time := extractedTime }
  else if awaiting == some "name" && nameM.isSome then
    { base with name := some (String.mk (stripL (nameM.getD []))) }
  else if awaiting == some "phone" && phoneM.isSome then
    { base with phone := some (String.mk ((phoneM.getD []).filter Char.isDigit)) }
  else if awaiting == some "reason" then
    { base with reason := some (String.mk (stripL cs)) }
  else
    { base with
      name := nameM.map (fun g => String.mk (stripL g)),
      phone := phoneM.map (fun g => String.mk (g.filter Char.isDigit)),
      date := extractedDate,
      time := extractedTime }

/-- The intent detection of fallback_parse (app.py lines 547-552). -/
def fallbackIntent (lcs : List Char) : Option String :=
  if containsL lcs "book".data then some "book"
  else if containsL lcs "reschedule".data then some "reschedule"
  else if containsL lcs "cancel".data then some "cancel"
  else none

/-- The pure field-routing part of fallback_parse (app.py lines 525-577),
given the already-computed extract_date result. -/
def fallback_core (awaiting : Option String) (text : String)
    (extractedDate : Option String) : ExtractionResult :=
  routeFields awaiting text.data
    (fallbackIntent (text.data.map Char.toLower))
    (searchWith phoneAt text.data)
    (searchWith (nameAt namePhrases) text.data)
    extractedDate
    (normalize_time (String.mk ((searchWith timeAltAt text.data).getD [])))

/-- DentalVoiceAgent.fallback_parse (app.py lines 523-577): deterministic
extraction routed by the awaited field.  extract_date runs
unconditionally, so its exception (see `monthResult`) escapes the
fallback parser too. -/
def fallback_parse (today : Date) (awaiting : Option String) (text : String) :
    Except PyError ExtractionResult :=
  match extract_date today text with
  | .error e => .error e
  | .ok extractedDate => .ok (fallback_core awaiting text extractedDate)

/-! ## The customer-confirmation branch of parse_with_llm
(app.py lines 229-242) -/

inductive ConfirmOutcome
  | affirmed
  | denied
  | fallthrough
  deriving Repr, DecidableEq

def affirmWords : List String :=
  ["yes", "yeah", "yep", "correct", "right", "confirm"]

def negativeWords : List String :=
  ["no", "nope", "wrong", "incorrect"]

/-- The branch of parse_with_llm taken when `awaiting_field ==
"customer_confirmation"`: substring keyword matching on the lowercased,
stripped utterance, affirmative list checked first.  Returns the outcome,
the updated state and the new awaiting field (`fallthrough` means neither
list matched and control continues to the oracle path, leaving both
unchanged). -/
def parse_confirmation (st : ConvState) (text : String) :
    ConfirmOutcome × ConvState × Option String :=
  let tl := stripL (text.data.map Char.toLower)
  if affirmWords.any (fun w => containsL tl w.data) then
    (.affirmed, { st with customer_confirmed := true }, none)
  else if negativeWords.any (fun w => containsL tl w.data) then
    (.denied,
     { st with customer_id := none, name := none, phone := none,
               patient_type := none },
     some "patient_type")
  else (.fallthrough, st, some "customer_confirmation")

/-! ## The identity-lookup pre-fill of generate_response
(app.py lines 667-677) -/

/-- A row of the Customer_Master sheet as returned by
GoogleSheetsManager.get_customer_by_id (google_sheets_manager.py lines
193-218): raw cell strings. -/
structure SheetCustomer where
  cid : String
  name : String
  phone : String
  deriving Repr, DecidableEq

/-- The `customer_confirmation` prompt branch of generate_response: the
identity is looked up by customer_id; a found record pre-fills name and
phone verbatim from the sheet and keeps awaiting the confirmation, a
missing record clears customer_id and re-routes to patient_type. -/
def confirmationLookup (record : Option SheetCustomer) (st : ConvState) :
    ConvState × Option String :=
  match record with
  | some c =>
    ({ st with name := some c.name, phone := some c.phone },
     some "customer_confirmation")
  | none => ({ st with customer_id := none }, some "patient_type")

/-! ## The dispatch operations (book / reschedule / cancel / view)

External collaborators are oracles: `Env` fixes their replies for the
turn, and every call made to them is recorded in order in a trace. -/

/-- Oracle replies of the external collaborators for one turn. -/
structure Env where
  today : Date
  avail : Bool
  findResult : Option String
  genId : String
  appts : List (String × String × String)
  deriving Repr, DecidableEq

/-- One call to an external collaborator. -/
inductive CallEv
  | findAppointment (name phone date : Option String)
  | updateLedger (cid : String) (oldDate oldTime newDate newTime : Option String)
  | cancelEvent (eventId : String)
  | createAppointment (name phone : Option String) (start : Instant)
      (reason cid : Option String)
  | logAppointment (cid : String) (name phone date time reason : Option String)
  | deleteLedger (cid : String) (date time : Option String)
  | generateId
  | getAppointments (cid : String)
  deriving Repr, DecidableEq

inductive BookResult
  | convError
  | pastDate
  | window
  | hoursClosed
  | slotTaken
  | booked (cid : String) (isNewId : Bool)
  | bookError
  deriving Repr, DecidableEq

/-- DentalVoiceAgent.book (app.py lines 744-807).  The date slot is
mutated in place by the cleaning step (it splits a date-plus-time value
when the time slot is falsy); a None date raises inside the cleaning test
and is caught by the outermost handler (`bookError`).  The composite
string rendered into strptime writes None as the literal "None". -/
def book (env : Env) (st : ConvState) : BookResult × ConvState × List CallEv :=
  match st.date with
  | none => (.bookError, st, [])
  | some dstr0 =>
    let cleaned :=
      if dstr0.data.contains ' ' && !truthy st.time then
        match splitFirstSpace dstr0.data with
        | some (l, r) => (String.mk l, some (String.mk r))
        | none => (dstr0, st.time)
      else (dstr0, st.time)
    let dstr := cleaned.1
    let timeStr := cleaned.2
    let st := { st with date := some dstr }
    let composite := dstr ++ " " ++ (match timeStr with | some t => t | none => "None")
    match parseDT12 composite with
    | none => (.convError, st, [])
    | some start =>
      match bookGate env.today start with
      | some .pastDate => (.pastDate, st, [])
      | some .window => (.window, st, [])
      | some .hoursClosed => (.hoursClosed, st, [])
      | none =>
        let genNew := !truthy st.customer_id
        let cid := if genNew then env.genId else st.customer_id.getD ""
        let genEvs := if genNew then [CallEv.generateId] else []
        let createEv := CallEv.createAppointment st.name st.phone start st.reason (some cid)
        if !env.avail then (.slotTaken, st, genEvs ++ [createEv])
        else
          let logEv := CallEv.logAppointment cid st.name st.phone
            (some dstr) st.time st.reason
          (.booked cid genNew, emptyState, genEvs ++ [createEv, logEv])

inductive ReschedResult
  | missingDetails
  | notFoundAppt
  | missingNew
  | convError
  | pastDate
  | window
  | hoursClosed
  | slotTaken
  | rescheduled
  deriving Repr, DecidableEq

/-- DentalVoiceAgent.reschedule_appointment (app.py lines 809-879):
locate by (name, phone, old date); then require the new slot; validate
it; update the Ledger row (only when a customer_id is known); delete the
old calendar event; create the new one; reset state only on success. -/
def reschedule_appointment (env : Env) (st : ConvState) :
    ReschedResult × ConvState × List CallEv :=
  if !(truthy st.name && truthy st.phone && truthy st.date) then
    (.missingDetails, st, [])
  else
    let findEv := CallEv.findAppointment st.name st.phone st.date
    match env.findResult with
    | none => (.notFoundAppt, st, [findEv])
    | some eventId =>
      if !(truthy st.new_date && truthy st.new_time) then
        (.missingNew, st, [findEv])
      else
        let ndStr := st.new_date.getD ""
        let ntStr := st.new_time.getD ""
        let composite := ndStr ++ " " ++ ntStr
        match parseDT12 composite with
        | none => (.convError, st, [findEv])
        | some newStart =>
          match bookGate env.today newStart with
          | some .pastDate => (.pastDate, st, [findEv])
          | some .window => (.window, st, [findEv])
          | some .hoursClosed => (.hoursClosed, st, [findEv])
          | none =>
            let ledgerEvs :=
              if truthy st.customer_id then
                [CallEv.updateLedger (st.customer_id.getD "") st.date st.time
                  (some ndStr) (some ntStr)]
              else []
            let cancelEv := CallEv.cancelEvent eventId
            let createEv := CallEv.createAppointment st.name st.phone newStart
              st.reason st.customer_id
            let trace := [findEv] ++ ledgerEvs ++ [cancelEv, createEv]
            if !env.avail then (.slotTaken, st, trace)
            else (.rescheduled, emptyState, trace)

inductive CancelResult
  | missingDetails
  | notFoundAppt
  | cancelled
  deriving Repr, DecidableEq

/-- DentalVoiceAgent.cancel_appointment (app.py lines 887-919): locate by
(name, phone, date), delete the calendar event, remove the Ledger row
when a customer_id is known, then reset. -/
def cancel_appointment (env : Env) (st : ConvState) :
    CancelResult × ConvState × List CallEv :=
  if !(truthy st.name && truthy st.phone && truthy st.date) then
    (.missingDetails, st, [])
  else
    let findEv := CallEv.findAppointment st.name st.phone st.date
    match env.findResult with
    | none => (.notFoundAppt, st, [findEv])
    | some eventId =>
      let cancelEv := CallEv.cancelEvent eventId
      let ledgerEvs :=
        if truthy st.customer_id then
          [CallEv.deleteLedger (st.customer_id.getD "") st.date st.time]
        else []
      (.cancelled, emptyState, [findEv, cancelEv] ++ ledgerEvs)

inductive ViewResult
  | needId
  | noneFound
  | listed (count : Nat)
  deriving Repr, DecidableEq

/-- DentalVoiceAgent.list_my_appointments (app.py lines 947-968): a
confirmed customer_id is required; an empty result list is a
state-preserving failure; a delivered list resets the state. -/
def list_my_appointments (env : Env) (st : ConvState) :
    ViewResult × ConvState × List CallEv :=
  if !truthy st.customer_id then (.needId, st, [])
  else
    let ev := CallEv.getAppointments (st.customer_id.getD "")
    if env.appts.isEmpty then (.noneFound, st, [ev])
    else (.listed env.appts.length, emptyState, [ev])

/-! ## Auxiliary predicates used by the statements -/

/-- A string field of an extraction result is absent (Python-falsy):
either the key is missing / None, or the value is the empty string. -/
def absentS (o : Option String) : Prop :=
  truthy o = false

instance (o : Option String) : Decidable (absentS o) := by
  unfold absentS; infer_instance

/-- The boolean confirmation field is absent (missing or False). -/
def absentB (o : Option Bool) : Prop :=
  o = none ∨ o = some false

instance (o : Option Bool) : Decidable (absentB o) := by
  unfold absentB; infer_instance

/-- The extraction carries no value at all. -/
def allAbsent (d : ExtractionResult) : Prop :=
  absentS d.intent ∧ absentS d.patient_type ∧ absentS d.customer_id ∧
  absentS d.name ∧ absentS d.phone ∧ absentS d.date ∧ absentS d.time ∧
  absentS d.new_date ∧ absentS d.new_time ∧ absentS d.reason ∧
  absentB d.customer_confirmed

instance (d : ExtractionResult) : Decidable (allAbsent d) := by
  unfold allAbsent; infer_instance

def BookResult.isSuccess : BookResult → Bool
  | .booked _ _ => true
  | _ => false

def ReschedResult.isSuccess : ReschedResult → Bool
  | .rescheduled => true
  | _ => false

def CancelResult.isSuccess : CancelResult → Bool
  | .cancelled => true
  | _ => false

def ViewResult.isSuccess : ViewResult → Bool
  | .listed _ => true
  | _ => false

/-- The 24-hour to 12-hour rendering exactly as the specification words
it: hour 0 becomes 12 AM, an hour greater than 12 becomes hour-12 PM.
Used to state the correctness of the 24-hour branch of normalize_time. -/
def spec12Hour (h m : Nat) : String :=
  toString (if h == 0 then 12 else if 12 < h then h - 12 else h) ++ ":" ++
    pad2 m ++ (if h < 12 then " AM" else " PM")

/-- The bare-hour rendering as the specification words it: the meridiem
is inferred (< 12 is AM, otherwise PM), an hour greater than 12 is
reduced by 12. -/
def specBareHour (h : Nat) : String :=
  toString (if 12 < h then h - 12 else h) ++ ":00 " ++
    (if h < 12 then "AM" else "PM")

/-! ## Concrete fixtures

Closed values used by the witnesses and counterexamples below.
2025-10-12 is a Sunday; 2025-10-13 (Monday) through 2025-10-15
(Wednesday) lie inside the three-day booking window. -/

def wToday : Date := ⟨2025, 10, 12⟩

def envOpen : Env :=
  { today := wToday
    avail := true
    findResult := some "evt17"
    genId := "CUST002"
    appts := [("2025-10-13", "2:00 PM", "checkup")] }

def stBookOk : ConvState :=
  { emptyState with
      intent := some "book"
      patient_type := some "new"
      name := some "Asha"
      phone := some "9876543210"
      date := some "2025-10-13"
      time := some "10:00 AM"
      reason := some "checkup" }

def stBookLate : ConvState :=
  { stBookOk with date := some "2025-10-16" }

def stResched : ConvState :=
  { emptyState with
      intent := some "reschedule"
      patient_type := some "old"
      customer_id := some "CUST001"
      name := some "Asha"
      phone := some "9876543210"
      date := some "2025-10-13"
      time := some "2:00 PM"
      new_date := some "2025-10-14"
      new_time := some "3:00 PM"
      customer_confirmed := true }

def stAwaitConfirm : ConvState :=
  { emptyState with
      intent := some "book"
      patient_type := some "old"
      customer_id := some "CUST001"
      name := some "Dhivakar G"
      phone := some "8610080257" }

/-- A Customer_Master row whose phone cell contains punctuation. -/
def recDashedPhone : SheetCustomer :=
  { cid := "CUST001", name := "Asha", phone := "98-76 543" }

/-! ## Helper lemmas -/

theorem daysInMonth_le_31 (y m : Nat) : daysInMonth y m ≤ 31 := by
  unfold daysInMonth
  split_ifs <;> simp

theorem daysInMonth_pos (y m : Nat) : 1 ≤ daysInMonth y m := by
  unfold daysInMonth
  split_ifs <;> simp

theorem encDate_lt_nextDay (dt : Date) (h : wfDate dt) :
    encDate dt < encDate (nextDay dt) := by
  obtain ⟨h1, h2, h3, h4⟩ := h
  have h31 : dt.d ≤ 31 := le_trans h4 (daysInMonth_le_31 dt.y dt.m)
  unfold nextDay
  split_ifs with hd hm
  all_goals unfold encDate
  all_goals dsimp only
  all_goals omega

theorem wfDate_nextDay (dt : Date) (h : wfDate dt) : wfDate (nextDay dt) := by
  obtain ⟨h1, h2, h3, h4⟩ := h
  have hp1 := daysInMonth_pos dt.y (dt.m + 1)
  have hp2 := daysInMonth_pos (dt.y + 1) 1
  unfold nextDay wfDate
  split_ifs with hd hm <;> dsimp only <;> omega

theorem wfDate_addDays (n : Nat) (dt : Date) (h : wfDate dt) :
    wfDate (addDays n dt) := by
  induction n with
  | zero => exact h
  | succ k ih => exact wfDate_nextDay _ ih

theorem encDate_le_addDays (n : Nat) (dt : Date) (h : wfDate dt) :
    encDate dt ≤ encDate (addDays n dt) := by
  induction n with
  | zero => exact le_refl _
  | succ k ih =>
    exact le_trans ih (le_of_lt (encDate_lt_nextDay _ (wfDate_addDays k dt h)))

theorem allDigits_filterDigits (s : String) : allDigits (filterDigits s) = true := by
  simp only [allDigits, filterDigits, List.all_eq_true]
  intro c hc
  exact (List.mem_filter.mp hc).2

/-! ## Claim C1 -/

/-- Claim C1: merging an extraction result in which every field is absent
(None / empty string / False) into any conversation state leaves the
state unchanged, and for every individual field, a merge whose extraction
carries an absent value for that field preserves the field (in
particular, a known value is never cleared back to unknown). -/
theorem update_state_merge_monotone (st : ConvState) (d : ExtractionResult) :
    (allAbsent d → update_state st d = st) ∧
    (absentS d.intent → (update_state st d).intent = st.intent) ∧
    (absentS d.patient_type → (update_state st d).patient_type = st.patient_type) ∧
    (absentS d.customer_id → (update_state st d).customer_id = st.customer_id) ∧
    (absentS d.name → (update_state st d).name = st.name) ∧
    (absentS d.phone → (update_state st d).phone = st.phone) ∧
    (absentS d.date → (update_state st d).date = st.date) ∧
    (absentS d.time → (update_state st d).time = st.time) ∧
    (absentS d.new_date → (update_state st d).new_date = st.new_date) ∧
    (absentS d.new_time → (update_state st d).new_time = st.new_time) ∧
    (absentS d.reason → (update_state st d).reason = st.reason) ∧
    (absentB d.customer_confirmed →
      (update_state st d).customer_confirmed = st.customer_confirmed) := by
  have hmf : ∀ o n, absentS n → mergeField o n = o := by
    intro o n hn
    unfold absentS at hn
    simp [mergeField, hn]
  have hmb : ∀ o n, absentB n → mergeBool o n = o := by
    intro o n hn
    rcases hn with h | h <;> simp [mergeBool, h]
  refine ⟨?_, ?_, ?_, ?_, ?_, ?_, ?_, ?_, ?_, ?_, ?_, ?_⟩
  · rintro ⟨a1, a2, a3, a4, a5, a6, a7, a8, a9, a10, ab⟩
    obtain ⟨i, pt, ci, nm, ph, da, ti, nd, nt, rs, cc⟩ := st
    simp only [update_state, ConvState.mk.injEq]
    exact ⟨hmf _ _ a1, hmf _ _ a2, hmf _ _ a3, hmf _ _ a4, hmf _ _ a5,
      hmf _ _ a6, hmf _ _ a7, hmf _ _ a8, hmf _ _ a9, hmf _ _ a10, hmb _ _ ab⟩
  all_goals first
    | (intro h; exact hmf _ _ h)
    | (intro h; exact hmb _ _ h)

/-- Witness for C1 at a concrete state and a concrete all-absent
extraction. -/
theorem update_state_merge_monotone_witness :
    update_state
      { emptyState with name := some "Asha", phone := some "9876543210" }
      { intent := none, patient_type := none, customer_id := none,
        name := some "", phone := none, date := none, time := none,
        new_date := none, new_time := none, reason := some "",
        customer_confirmed := some false } =
      { emptyState with name := some "Asha", phone := some "9876543210" } :=
  (update_state_merge_monotone _ _).1 (by decide)

/-! ## Gate characterization lemmas -/

theorem is_business_hours_iff (inst : Instant) :
    is_business_hours inst = true ↔
      (9 ≤ inst.hour ∧ inst.hour < 17 ∧ pyWeekday inst.date ≠ 6) := by
  unfold is_business_hours
  split_ifs with h1 h2 <;> simp_all
  omega

theorem dateLt_false_iff (a b : Date) : dateLt a b = false ↔ dateLe b a = true := by
  unfold dateLt dateLe
  simp [Nat.not_lt]

theorem bookGate_pastDate_iff (today : Date) (inst : Instant) :
    bookGate today inst = some .pastDate ↔ dateLt inst.date today = true := by
  unfold bookGate
  split_ifs <;> simp_all

theorem bookGate_window_iff (today : Date) (inst : Instant) :
    bookGate today inst = some .window ↔
      (dateLt inst.date today = false ∧ dateLt (addDays 3 today) inst.date = true) := by
  unfold bookGate
  split_ifs <;> simp_all

theorem bookGate_hours_iff (today : Date) (inst : Instant) :
    bookGate today inst = some .hoursClosed ↔
      (dateLt inst.date today = false ∧ dateLt (addDays 3 today) inst.date = false ∧
       is_business_hours inst = false) := by
  unfold bookGate
  split_ifs <;> simp_all

theorem bookGate_none_iff (today : Date) (inst : Instant) :
    bookGate today inst = none ↔
      (dateLt inst.date today = false ∧ dateLt (addDays 3 today) inst.date = false ∧
       is_business_hours inst = true) := by
  unfold bookGate
  split_ifs <;> simp_all

/-! ## Claim C3 -/

/-- Claim C3: the booking validation gate accepts a parsed target instant
iff its date lies within [today, today+3] inclusive, its hour is in
[9, 17) and its weekday is not Sunday; a date of exactly today+3 does not
trip the past-date or window check, today+4 fails with the window
failure, the day before today fails with the past-date failure, 09:00
passes and 08:xx and 17:00 fail (given an in-window non-Sunday date), and
a Sunday fails at every hour. -/
theorem bookGate_characterization (today : Date) (inst : Instant) :
    (bookGate today inst = none ↔
      (dateLe today inst.date = true ∧ dateLe inst.date (addDays 3 today) = true ∧
       9 ≤ inst.hour ∧ inst.hour < 17 ∧ pyWeekday inst.date ≠ 6)) ∧
    (wfDate today → inst.date = addDays 3 today →
      bookGate today inst ≠ some .pastDate ∧ bookGate today inst ≠ some .window) ∧
    (wfDate today → inst.date = addDays 4 today → bookGate today inst = some .window) ∧
    (wfDate inst.date → nextDay inst.date = today →
      bookGate today inst = some .pastDate) ∧
    (dateLe today inst.date = true → dateLe inst.date (addDays 3 today) = true →
     pyWeekday inst.date ≠ 6 →
      ((inst.hour = 9 → bookGate today inst = none) ∧
       (inst.hour = 8 → bookGate today inst = some .hoursClosed) ∧
       (inst.hour = 17 → bookGate today inst = some .hoursClosed))) ∧
    (dateLe today inst.date = true → dateLe inst.date (addDays 3 today) = true →
     pyWeekday inst.date = 6 → bookGate today inst = some .hoursClosed) := by
  have hlt : ∀ a b : Date, (dateLt a b = true ↔ encDate a < encDate b) := by
    intro a b; unfold dateLt; simp
  have hle : ∀ a b : Date, (dateLe a b = true ↔ encDate a ≤ encDate b) := by
    intro a b; unfold dateLe; simp
  have hltf : ∀ a b : Date, (dateLt a b = false ↔ encDate b ≤ encDate a) := by
    intro a b
    rw [dateLt_false_iff, hle]
  refine ⟨?_, ?_, ?_, ?_, ?_, ?_⟩
  · rw [bookGate_none_iff, is_business_hours_iff, hltf, hltf, hle, hle]
  · intro hwf heq
    have h3 := encDate_le_addDays 3 today hwf
    constructor
    · intro hcon
      rw [bookGate_pastDate_iff, heq, hlt] at hcon
      omega
    · intro hcon
      rw [bookGate_window_iff, heq, hlt] at hcon
      omega
  · intro hwf heq
    have h3 := encDate_le_addDays 3 today hwf
    have h4 : encDate (addDays 3 today) < encDate (addDays 4 today) :=
      encDate_lt_nextDay _ (wfDate_addDays 3 today hwf)
    rw [bookGate_window_iff, hlt, hltf, heq]
    exact ⟨by omega, by omega⟩
  · intro hwf heq
    have h := encDate_lt_nextDay inst.date hwf
    rw [heq] at h
    rw [bookGate_pastDate_iff, hlt]
    exact h
  · intro hta hat hwd
    rw [hle] at hta hat
    refine ⟨?_, ?_, ?_⟩ <;> intro hh
    · rw [bookGate_none_iff, is_business_hours_iff, hltf, hltf, hh]
      exact ⟨by omega, by omega, by omega, by omega, hwd⟩
    · rw [bookGate_hours_iff, hltf, hltf]
      refine ⟨by omega, by omega, ?_⟩
      rw [← Bool.not_eq_true, is_business_hours_iff]
      intro hcon
      omega
    · rw [bookGate_hours_iff, hltf, hltf]
      refine ⟨by omega, by omega, ?_⟩
      rw [← Bool.not_eq_true, is_business_hours_iff]
      intro hcon
      omega
  · intro hta hat hwd
    rw [hle] at hta hat
    rw [bookGate_hours_iff, hltf, hltf]
    refine ⟨by omega, by omega, ?_⟩
    rw [← Bool.not_eq_true, is_business_hours_iff]
    intro hcon
    exact hcon.2.2 hwd

/-- Witness for C3 at a concrete today (Sunday 2025-10-12) and target
instants around every boundary. -/
theorem bookGate_characterization_witness :
    bookGate ⟨2025, 10, 12⟩ ⟨⟨2025, 10, 15⟩, 9, 0⟩ = none ∧
    bookGate ⟨2025, 10, 12⟩ ⟨⟨2025, 10, 16⟩, 9, 0⟩ = some .window ∧
    bookGate ⟨2025, 10, 12⟩ ⟨⟨2025, 10, 11⟩, 9, 0⟩ = some .pastDate ∧
    bookGate ⟨2025, 10, 12⟩ ⟨⟨2025, 10, 13⟩, 8, 59⟩ = some .hoursClosed ∧
    bookGate ⟨2025, 10, 12⟩ ⟨⟨2025, 10, 13⟩, 17, 0⟩ = some .hoursClosed ∧
    bookGate ⟨2025, 10, 12⟩ ⟨⟨2025, 10, 12⟩, 11, 0⟩ = some .hoursClosed := by
  have h := bookGate_characterization (⟨2025, 10, 12⟩ : Date)
  refine ⟨?_, ?_, ?_, ?_, ?_, ?_⟩
  · exact ((h ⟨⟨2025, 10, 15⟩, 9, 0⟩).2.2.2.2.1 (by decide) (by decide) (by decide)).1 rfl
  · exact (h ⟨⟨2025, 10, 16⟩, 9, 0⟩).2.2.1 (by decide) (by decide)
  · exact (h ⟨⟨2025, 10, 11⟩, 9, 0⟩).2.2.2.1 (by decide) (by decide)
  · exact ((h ⟨⟨2025, 10, 13⟩, 8, 59⟩).2.2.2.2.1 (by decide) (by decide) (by decide)).2.1 rfl
  · exact ((h ⟨⟨2025, 10, 13⟩, 17, 0⟩).2.2.2.2.1 (by decide) (by decide) (by decide)).2.2 rfl
  · exact (h ⟨⟨2025, 10, 12⟩, 11, 0⟩).2.2.2.2.2 (by decide) (by decide) (by decide)

/-! ## Claim C2 -/

/-- Claim C2: a validation failure in the booking path (past date, date
beyond the window, out-of-hours time, occupied slot — every non-success
outcome) returns its corrective outcome and leaves the conversation
state exactly as it was, and each of the four terminal operations resets
the state to empty exactly when it succeeds.  The hypothesis that the
time slot is truthy (always established by the missing-field resolver
before book is dispatched) rules out the in-place date-splitting
performed by book's cleaning step. -/
theorem dispatch_reset_exactly_on_success (env : Env) (st : ConvState) :
    (truthy st.time = true →
      (book env st).2.1 = (if (book env st).1.isSuccess then emptyState else st)) ∧
    ((reschedule_appointment env st).2.1 =
      (if (reschedule_appointment env st).1.isSuccess then emptyState else st)) ∧
    ((cancel_appointment env st).2.1 =
      (if (cancel_appointment env st).1.isSuccess then emptyState else st)) ∧
    ((list_my_appointments env st).2.1 =
      (if (list_my_appointments env st).1.isSuccess then emptyState else st)) := by
  refine ⟨?_, ?_, ?_, ?_⟩
  · intro ht
    rcases hd : st.date with _ | d0
    · simp [book, hd, BookResult.isSuccess]
    · have hst : { st with date := some d0 } = st := by
        cases st
        simp_all
      simp only [book, hd, ht, Bool.not_true, Bool.and_false, Bool.false_eq_true,
        if_false, hst]
      split
      · simp [BookResult.isSuccess]
      · rename_i start hp
        rcases Option.eq_none_or_eq_some (bookGate env.today start) with hg | ⟨gf, hg⟩
        · simp only [hg]
          split_ifs <;> simp_all [BookResult.isSuccess]
        · cases gf <;> simp only [hg] <;> simp [BookResult.isSuccess]
  · unfold reschedule_appointment
    rcases hp : parseDT12 (st.new_date.getD "" ++ " " ++ st.new_time.getD "") with _ | ns
    · simp only [hp]
      repeat' split
      all_goals simp_all [ReschedResult.isSuccess]
    · rcases hg : bookGate env.today ns with _ | gf
      · simp only [hp, hg]
        repeat' split
        all_goals simp_all [ReschedResult.isSuccess]
      · cases gf <;> simp only [hp, hg] <;> repeat' split
        all_goals simp_all [ReschedResult.isSuccess]
  · unfold cancel_appointment
    repeat' split
    all_goals simp_all [CancelResult.isSuccess]
  · unfold list_my_appointments
    repeat' split
    all_goals simp_all [ViewResult.isSuccess]

/-- Witness for C2: a concrete successful booking resets to the empty
state, and the same booking attempt moved out of the window preserves
the state. -/
theorem dispatch_reset_exactly_on_success_witness :
    (book envOpen stBookOk).2.1 = emptyState ∧
    (book envOpen stBookLate).2.1 = stBookLate := by
  constructor
  · have h := (dispatch_reset_exactly_on_success envOpen stBookOk).1 (by decide)
    rw [h]
    decide
  · have h := (dispatch_reset_exactly_on_success envOpen stBookLate).1 (by decide)
    rw [h]
    decide

/-! ## Claim C10 -/

/-- Claim C10: a conversation state with an unknown (falsy) intent is
treated exactly as intent book: the missing-field resolver computes the
same list as for the same state with intent set to book — in particular,
for a new patient it is the booking required set {name, phone, date,
time, reason} filtered to the still-unknown fields — and the dispatcher
routes the state to the book action. -/
theorem intent_unknown_defaults_to_book (st : ConvState)
    (h : truthy st.intent = false) :
    chooseAction st = .doBook ∧
    get_missing_fields st = get_missing_fields { st with intent := some "book" } ∧
    (st.patient_type = some "new" →
      get_missing_fields st =
        missingOf st ["name", "phone", "date", "time", "reason"]) := by
  refine ⟨?_, ?_, ?_⟩
  · simp [chooseAction, h]
  · obtain ⟨i, pt, cid, nm, ph, da, ti, nd, nt, rs, cc⟩ := st
    cases i with
    | none => rfl
    | some s =>
      have hs : s = "" := by simpa [truthy] using h
      subst hs
      rfl
  · intro hpt
    obtain ⟨i, pt, cid, nm, ph, da, ti, nd, nt, rs, cc⟩ := st
    simp only at hpt
    subst hpt
    cases i with
    | none => rfl
    | some s =>
      have hs : s = "" := by simpa [truthy] using h
      subst hs
      rfl

/-- Witness for C10 at a concrete intent-less state. -/
theorem intent_unknown_defaults_to_book_witness :
    chooseAction { stBookOk with intent := none } = .doBook ∧
    get_missing_fields { stBookOk with intent := none } =
      get_missing_fields { stBookOk with intent := some "book" } := by
  have h := intent_unknown_defaults_to_book { stBookOk with intent := none }
    (by decide)
  exact ⟨h.1, h.2.1⟩

/-! ## Claim C6 (code bug) -/

/-- Claim C6 records the intended confirmation semantics: affirmative
tokens confirm, negative tokens (no / nope / wrong / incorrect) clear the
looked-up identity and re-route to patient_type.  The affirmative half
holds (first conjunct, proved for every utterance containing an
affirmative token).  The negative half is broken in the code for the
listed token "incorrect": the affirmative substring check runs first and
"correct" is a substring of "incorrect", so the utterance "incorrect"
sets customer_confirmed and keeps the identity (second conjunct), making
the "incorrect" entry of the negative list unreachable.  The third
conjunct shows the intended outcome does occur for "wrong". -/
theorem confirmation_incorrect_is_treated_as_affirmative :
    (∀ st : ConvState, ∀ text : String,
      (affirmWords.any fun w =>
        containsL (stripL (text.data.map Char.toLower)) w.data) = true →
      parse_confirmation st text =
        (.affirmed, { st with customer_confirmed := true }, none)) ∧
    parse_confirmation stAwaitConfirm "incorrect" =
      (.affirmed, { stAwaitConfirm with customer_confirmed := true }, none) ∧
    parse_confirmation stAwaitConfirm "wrong" =
      (.denied,
       { stAwaitConfirm with customer_id := none, name := none, phone := none,
                             patient_type := none },
       some "patient_type") := by
  refine ⟨?_, ?_, ?_⟩
  · intro st text h
    unfold parse_confirmation
    simp only [h, if_true]
  · decide
  · decide

/-! ## Claim C7 (code bug) -/

/-- Claim C7 states that a month-name date with the year omitted gets the
current year inferred (rolled forward by one year when already past) and
that extract_date never raises.  The code does contain that roll-forward
logic, but to decide "already past" it builds the naive
`datetime(year_int, month_num, day_int)` and orders it against the
timezone-aware `today`, which raises TypeError on every "Month D" input
(ValueError instead when the day is invalid for the month); the exception
escapes extract_date.  The "Month Year" form (day defaulting to the 1st)
never reaches the comparison and still works. -/
theorem extract_date_month_without_year_raises :
    extract_date ⟨2025, 10, 12⟩ "march 5" = .error .typeError ∧
    extract_date ⟨2025, 10, 12⟩ "January 6th" = .error .typeError ∧
    extract_date ⟨2025, 10, 12⟩ "feb 30" = .error .valueError ∧
    extract_date ⟨2025, 10, 12⟩ "march 2026" = .ok (some "2026-03-01") :=
  ⟨rfl, rfl, rfl, rfl⟩

/-! ## Claim C4 -/

/-- Claim C4: extract_date tries its rules in the fixed priority order —
explicit YYYY-MM-DD, then day-first DD/MM/YYYY or DD-MM-YYYY, then the
month-name forms, then the relative keywords, then a bare day number —
with the first matching rule deciding the result (conjuncts four to
eight), and on the concrete examples: "March 5 2026" gives 2026-03-05,
"5/3/2026" is parsed day-first to 2026-03-05, and "tomorrow" gives
today+1 in ISO form (first three conjuncts, for every today). -/
theorem extract_date_priority_and_examples (today : Date) :
    extract_date today "March 5 2026" = .ok (some "2026-03-05") ∧
    extract_date today "5/3/2026" = .ok (some "2026-03-05") ∧
    extract_date today "tomorrow" = .ok (some (fmtDate (nextDay today))) ∧
    (∀ text : String, ∀ yy mo dd : List Char,
      searchWith ymdAt text.data = some (yy, mo, dd) →
      extract_date today text =
        .ok (some (String.mk yy ++ "-" ++ zfill2 mo ++ "-" ++ zfill2 dd))) ∧
    (∀ text : String, ∀ dd mo yy : List Char,
      searchWith ymdAt text.data = none →
      searchWith dmyAt text.data = some (dd, mo, yy) →
      extract_date today text =
        .ok (some (String.mk yy ++ "-" ++ zfill2 mo ++ "-" ++ zfill2 dd))) ∧
    (∀ text : String, ∀ num : Nat, ∀ dayG yearG : Option (List Char),
      searchWith ymdAt text.data = none →
      searchWith dmyAt text.data = none →
      monthScan monthsList (text.data.map Char.toLower) = some (num, dayG, yearG) →
      extract_date today text = monthResult today num dayG yearG) ∧
    (∀ text : String,
      searchWith ymdAt text.data = none →
      searchWith dmyAt text.data = none →
      monthScan monthsList (text.data.map Char.toLower) = none →
      containsL (text.data.map Char.toLower) "tomorrow".data = true →
      extract_date today text = .ok (some (fmtDate (nextDay today)))) ∧
    (∀ text : String, ∀ dayG : List Char,
      searchWith ymdAt text.data = none →
      searchWith dmyAt text.data = none →
      monthScan monthsList (text.data.map Char.toLower) = none →
      containsL (text.data.map Char.toLower) "tomorrow".data = false →
      containsL (text.data.map Char.toLower) "today".data = false →
      containsL (text.data.map Char.toLower) "next week".data = false →
      searchBare false text.data = some dayG →
      extract_date today text = .ok (bareBranch today dayG)) := by
  refine ⟨?_, ?_, ?_, ?_, ?_, ?_, ?_, ?_⟩
  · have h1 : searchWith ymdAt "March 5 2026".data = none := rfl
    have h2 : searchWith dmyAt "March 5 2026".data = none := rfl
    have h3 : monthScan monthsList ("March 5 2026".data.map Char.toLower) =
        some (3, some ['5'], some ['2', '0', '2', '6']) := rfl
    simp only [extract_date, h1, h2, h3, monthResult]
    rfl
  · have h1 : searchWith ymdAt "5/3/2026".data = none := rfl
    have h2 : searchWith dmyAt "5/3/2026".data =
        some (['5'], ['3'], ['2', '0', '2', '6']) := rfl
    simp only [extract_date, h1, h2]
    rfl
  · have h1 : searchWith ymdAt "tomorrow".data = none := rfl
    have h2 : searchWith dmyAt "tomorrow".data = none := rfl
    have h3 : monthScan monthsList ("tomorrow".data.map Char.toLower) = none := rfl
    have h4 : containsL ("tomorrow".data.map Char.toLower) "tomorrow".data = true := rfl
    simp only [extract_date, h1, h2, h3, h4, if_true]
  · intro text yy mo dd h
    simp only [extract_date, h]
  · intro text dd mo yy h1 h2
    simp only [extract_date, h1, h2]
  · intro text num dayG yearG h1 h2 h3
    simp only [extract_date, h1, h2, h3]
  · intro text h1 h2 h3 h4
    simp only [extract_date, h1, h2, h3, h4, if_true]
  · intro text dayG h1 h2 h3 h4 h5 h6 h7
    simp only [extract_date, h1, h2, h3, h4, h5, h6, h7, Bool.false_eq_true,
      if_false]

/-- Witness for C4: each priority conjunct applied at a concrete input,
with every search hypothesis evaluated. -/
theorem extract_date_priority_and_examples_witness :
    extract_date wToday "2026-1-2" = .ok (some "2026-01-02") ∧
    extract_date wToday "5-3-2026" = .ok (some "2026-03-05") ∧
    extract_date wToday "march 5" = monthResult wToday 3 (some ['5']) none ∧
    extract_date wToday "see you tomorrow" = .ok (some "2025-10-13") ∧
    extract_date wToday "the 20th" = .ok (some "2025-10-20") := by
  have h := extract_date_priority_and_examples wToday
  refine ⟨?_, ?_, ?_, ?_, ?_⟩
  · exact h.2.2.2.1 "2026-1-2" ['2', '0', '2', '6'] ['1'] ['2'] rfl
  · exact h.2.2.2.2.1 "5-3-2026" ['5'] ['3'] ['2', '0', '2', '6'] rfl rfl
  · exact h.2.2.2.2.2.1 "march 5" 3 (some ['5']) none rfl rfl rfl
  · exact (h.2.2.2.2.2.2.1 "see you tomorrow" rfl rfl rfl rfl).trans rfl
  · exact (h.2.2.2.2.2.2.2 "the 20th" ['2', '0'] rfl rfl rfl rfl rfl rfl rfl).trans rfl

/-! ## Claim C5 -/

/-- Claim C5: normalize_time maps every 24-hour "HH:MM" input by the
standard 12-hour wraparound (hour 0 becomes 12 AM, an hour greater than
12 becomes hour-12 PM), infers the meridiem of every bare hour (less
than 12 is AM, otherwise PM), returns None whenever none of its four
patterns matches, and on the concrete examples: "14:00" gives "2:00 PM",
"9am" gives "9:00 AM", "00:15" gives "12:15 AM". -/
theorem normalize_time_characterization :
    normalize_time "14:00" = some "2:00 PM" ∧
    normalize_time "9am" = some "9:00 AM" ∧
    normalize_time "00:15" = some "12:15 AM" ∧
    (∀ h : Fin 24, ∀ m : Fin 60,
      normalize_time (pad2 h.val ++ ":" ++ pad2 m.val) =
        some (spec12Hour h.val m.val)) ∧
    (∀ h : Fin 24,
      normalize_time (toString h.val) = some (specBareHour h.val)) ∧
    (∀ s : String,
      matchTimeP1 (stripL s.data) = false →
      matchTimeP2 (stripL s.data) = none →
      matchTimeP3 (stripL s.data) = none →
      matchTimeP4 (stripL s.data) = none →
      normalize_time s = none) := by
  set_option maxHeartbeats 1000000 in
  refine ⟨rfl, rfl, rfl, by decide, by decide, ?_⟩
  intro s h1 h2 h3 h4
  unfold normalize_time
  split_ifs with h0
  · rfl
  · simp only [h1, h2, h3, h4, Bool.false_eq_true, if_false]

/-- Witness for C5: the no-pattern conjunct applied to a concrete
non-time utterance, with each pattern mismatch evaluated. -/
theorem normalize_time_characterization_witness :
    normalize_time "soon" = none :=
  normalize_time_characterization.2.2.2.2.2 "soon" rfl rfl rfl rfl

/-! ## Claim C8 (corrected) -/

/-- Counterexample to claim C8 as stated: the claim puts the Ledger-row
update after the calendar delete and create, but on a concrete fully
successful reschedule the recorded collaborator-call trace is find,
updateLedger, cancelEvent, createAppointment — the Ledger row is updated
before the old calendar event is deleted and before the new one is
created. -/
theorem reschedule_trace_counterexample :
    (reschedule_appointment envOpen stResched).2.2 =
      [CallEv.findAppointment (some "Asha") (some "9876543210") (some "2025-10-13"),
       CallEv.updateLedger "CUST001" (some "2025-10-13") (some "2:00 PM")
         (some "2025-10-14") (some "3:00 PM"),
       CallEv.cancelEvent "evt17",
       CallEv.createAppointment (some "Asha") (some "9876543210")
         (Instant.mk (Date.mk 2025 10 14) 15 0) none (some "CUST001")] ∧
    (reschedule_appointment envOpen stResched).1 = .rescheduled := by
  decide

/-- Claim C8 as amended: the reschedule operation first locates the
existing appointment by (name, phone, old date) and treats not-found as a
terminal, state-preserving failure; then validates the new slot; then —
when a customer_id is known — updates the Ledger row; then deletes the
old calendar event and creates the new one; and it resets state exactly
when the final creation succeeds (an occupied new slot preserves the
state, although the Ledger update and the deletion have already been
issued at that point). -/
theorem reschedule_order_amended (env : Env) (st : ConvState)
    (hn : truthy st.name = true) (hp : truthy st.phone = true)
    (hd : truthy st.date = true) :
    (env.findResult = none →
      (reschedule_appointment env st).1 = .notFoundAppt ∧
      (reschedule_appointment env st).2.1 = st ∧
      (reschedule_appointment env st).2.2 =
        [CallEv.findAppointment st.name st.phone st.date]) ∧
    (∀ eid : String, ∀ ns : Instant, env.findResult = some eid →
      truthy st.new_date = true → truthy st.new_time = true →
      parseDT12 (st.new_date.getD "" ++ " " ++ st.new_time.getD "") = some ns →
      bookGate env.today ns = none →
      (reschedule_appointment env st).2.2 =
        [CallEv.findAppointment st.name st.phone st.date] ++
        (if truthy st.customer_id then
          [CallEv.updateLedger (st.customer_id.getD "") st.date st.time
            (some (st.new_date.getD "")) (some (st.new_time.getD ""))]
         else []) ++
        [CallEv.cancelEvent eid,
         CallEv.createAppointment st.name st.phone ns st.reason st.customer_id] ∧
      ((reschedule_appointment env st).1 = .rescheduled ↔ env.avail = true) ∧
      (env.avail = true → (reschedule_appointment env st).2.1 = emptyState) ∧
      (env.avail = false → (reschedule_appointment env st).2.1 = st)) := by
  constructor
  · intro hf
    refine ⟨?_, ?_, ?_⟩ <;> simp [reschedule_appointment, hn, hp, hd, hf]
  · intro eid ns hf hnd hnt hparse hgate
    refine ⟨?_, ?_, ?_, ?_⟩ <;>
      cases hav : env.avail <;>
        simp [reschedule_appointment, hn, hp, hd, hf, hnd, hnt, hparse, hgate, hav]

/-- Witness for the amended C8 at a concrete reschedule (found and
successful) and a concrete not-found failure. -/
theorem reschedule_order_amended_witness :
    (reschedule_appointment envOpen stResched).1 = .rescheduled ∧
    (reschedule_appointment { envOpen with findResult := none } stResched).1 =
      .notFoundAppt := by
  constructor
  · exact ((reschedule_order_amended envOpen stResched (by decide) (by decide)
      (by decide)).2 "evt17" (Instant.mk (Date.mk 2025 10 14) 15 0) rfl
      (by decide) (by decide) (by decide) (by decide)).2.1.mpr rfl
  · exact ((reschedule_order_amended { envOpen with findResult := none }
      stResched (by decide) (by decide) (by decide)).1 rfl).1

/-! ## Claim C9 (corrected) -/

theorem allDigits_mk_filter (l : List Char) :
    allDigits (String.mk (l.filter Char.isDigit)) = true := by
  simp only [allDigits, List.all_eq_true]
  intro c hc
  exact (List.mem_filter.mp hc).2

theorem validate_and_fix_phone (today : Date) (parsed : ExtractionResult)
    (original : String) :
    (validate_and_fix today parsed original).phone =
      (if truthy parsed.phone then some (filterDigits (parsed.phone.getD ""))
       else parsed.phone) := by
  unfold validate_and_fix
  split_ifs with hp <;> rfl

theorem routeFields_phone_cases (awaiting : Option String) (cs : List Char)
    (intent : Option String) (phoneM nameM : Option (List Char))
    (ed et : Option String) :
    (routeFields awaiting cs intent phoneM nameM ed et).phone = none ∨
    ∃ g : List Char,
      (routeFields awaiting cs intent phoneM nameM ed et).phone =
        some (String.mk (g.filter Char.isDigit)) := by
  unfold routeFields
  split_ifs
  all_goals
    first
      | exact Or.inl rfl
      | exact Or.inr ⟨phoneM.getD [], rfl⟩
      | (rcases phoneM with _ | g
         · exact Or.inl rfl
         · exact Or.inr ⟨g, rfl⟩)

/-- Counterexample to claim C9 as stated: the returning-patient identity
pre-fill copies the ledger record's phone cell verbatim into the state,
so with a record whose phone cell contains punctuation the state's phone
field ends up non-empty but not digits-only. -/
theorem phone_prefill_counterexample :
    (confirmationLookup (some recDashedPhone) stAwaitConfirm).1.phone =
      some "98-76 543" ∧
    truthy (confirmationLookup (some recDashedPhone) stAwaitConfirm).1.phone =
      true ∧
    allDigits
      ((confirmationLookup (some recDashedPhone) stAwaitConfirm).1.phone.getD "") =
      false := by
  decide

/-- Claim C9 as amended: the digits-only phone invariant holds for the
two parser paths — every truthy phone produced by validate_and_fix (the
NLU oracle path) or by a successful fallback parse is digits-only — and
it is preserved by the state merge; the returning-patient pre-fill,
however, copies the ledger record's phone verbatim, so it preserves the
invariant only when that record's phone is itself digits-only (which is
the case for records this system writes, since log_appointment stores
the already-sanitized state phone). -/
theorem phone_digits_only_amended :
    (∀ today : Date, ∀ parsed : ExtractionResult, ∀ original : String,
      truthy (validate_and_fix today parsed original).phone = true →
      allDigits ((validate_and_fix today parsed original).phone.getD "") = true) ∧
    (∀ today : Date, ∀ awaiting : Option String, ∀ text : String,
      ∀ r : ExtractionResult,
      fallback_parse today awaiting text = .ok r →
      truthy r.phone = true →
      allDigits (r.phone.getD "") = true) ∧
    (∀ record : Option SheetCustomer, ∀ st : ConvState,
      allDigits (st.phone.getD "") = true →
      (∀ c : SheetCustomer, record = some c → allDigits c.phone = true) →
      allDigits ((confirmationLookup record st).1.phone.getD "") = true) ∧
    (∀ st : ConvState, ∀ d : ExtractionResult,
      allDigits (st.phone.getD "") = true →
      (∀ s : String, d.phone = some s → allDigits s = true) →
      allDigits ((update_state st d).phone.getD "") = true) := by
  refine ⟨?_, ?_, ?_, ?_⟩
  · intro today parsed original h
    rw [validate_and_fix_phone] at h ⊢
    split_ifs at h ⊢ with hp
    · simp only [Option.getD_some]
      exact allDigits_filterDigits _
    · exact absurd h hp
  · intro today awaiting text r hok htr
    unfold fallback_parse at hok
    rcases hE : extract_date today text with e | ed
    · rw [hE] at hok
      cases hok
    · rw [hE] at hok
      injection hok with hok
      subst hok
      rcases routeFields_phone_cases awaiting text.data
          (fallbackIntent (text.data.map Char.toLower))
          (searchWith phoneAt text.data)
          (searchWith (nameAt namePhrases) text.data) ed
          (normalize_time (String.mk ((searchWith timeAltAt text.data).getD [])))
          with hc | ⟨g, hc⟩
      · rw [show (fallback_core awaiting text ed).phone =
            (routeFields awaiting text.data
              (fallbackIntent (text.data.map Char.toLower))
              (searchWith phoneAt text.data)
              (searchWith (nameAt namePhrases) text.data) ed
              (normalize_time
                (String.mk ((searchWith timeAltAt text.data).getD [])))).phone
            from rfl, hc] at htr
        cases htr
      · rw [show (fallback_core awaiting text ed).phone =
            (routeFields awaiting text.data
              (fallbackIntent (text.data.map Char.toLower))
              (searchWith phoneAt text.data)
              (searchWith (nameAt namePhrases) text.data) ed
              (normalize_time
                (String.mk ((searchWith timeAltAt text.data).getD [])))).phone
            from rfl, hc]
        simp only [Option.getD_some]
        exact allDigits_mk_filter _
  · intro record st hst hrec
    rcases record with _ | c
    · exact hst
    · simpa [confirmationLookup] using hrec c rfl
  · intro st d hst hd
    show allDigits ((mergeField st.phone d.phone).getD "") = true
    unfold mergeField
    split_ifs with hp
    · rcases hdp : d.phone with _ | s
      · rw [hdp] at hp
        cases hp
      · simpa using hd s hdp
    · exact hst

/-- Witness for the amended C9: the oracle path strips a punctuated
phone to digits, and the pre-fill of a digits-only ledger record keeps
the invariant. -/
theorem phone_digits_only_amended_witness :
    allDigits
      ((validate_and_fix wToday { phone := some "98-76 543" } "").phone.getD "") =
      true ∧
    allDigits
      ((confirmationLookup (some ⟨"CUST001", "Asha", "9876543210"⟩)
          stAwaitConfirm).1.phone.getD "") = true := by
  constructor
  · exact phone_digits_only_amended.1 wToday { phone := some "98-76 543" } ""
      (by decide)
  · exact phone_digits_only_amended.2.2.1 (some ⟨"CUST001", "Asha", "9876543210"⟩)
      stAwaitConfirm (by decide) (by intro c hc; cases hc; decide)

end DentalAgent
